import Mathlib

/-!
Verification of `print_names_and_sources.py`: a shallow embedding of the
conversion pipeline (record iteration, field mapping, test-case reshaping,
file emission) and of the name/source reporter, together with theorems
settling the specification claims.

File writes, directory creation and printed lines are modelled as a trace
of events; a raised Python exception is modelled as an `error` field that
aborts the remaining processing, keeping the events that already happened.
-/

namespace PNS

/-- One test case, the JSON object with keys `input` and `output` that the
dataset stores inside `publicTests` / `privateTests` / `generatedTests`. -/
structure TestCase where
  input : String
  output : String
deriving DecidableEq, Repr

/-- The dict returned by `_transpose_input_output` (line 59): two parallel
lists under the keys `inputs` and `outputs`. -/
structure Bundle where
  inputs : List String
  outputs : List String
deriving DecidableEq, Repr

/-- Embedding of `_transpose_input_output` (lines 49-59): the loop walks the
test cases in order, appending `datum['input']` to `inputs` and
`datum['output']` to `outputs`. -/
def transpose_input_output (test_cases : List TestCase) : Bundle :=
  test_cases.foldl
    (fun acc datum =>
      { inputs := acc.inputs ++ [datum.input],
        outputs := acc.outputs ++ [datum.output] })
    { inputs := [], outputs := [] }

/-- A JSON value, as produced by `MessageToJson` followed by `json.loads`. -/
inductive JVal where
  | str (s : String)
  | num (n : Nat)
  | arr (xs : List JVal)
  | obj (fields : List (String × JVal))
deriving Repr

/-- The JSON view of one `ContestProblem` after `json.loads(MessageToJson(problem))`
(line 96).  Only the fields this program touches are modelled.  `MessageToJson`
omits empty repeated fields and empty strings, so each optional field is
`none` exactly when the corresponding key is absent from the dict.  `source`
holds the enum's name string (the same text `Source.Name` yields on line 90
and the diagnostic on line 118 prints); `solutions` is the JSON array the
repeated `solutions` field renders to. -/
structure ProblemJson where
  name : String
  source : String
  description : Option String
  solutions : Option (List JVal)
  publicTests : Option (List TestCase)
  privateTests : Option (List TestCase)
  generatedTests : Option (List TestCase)
deriving Repr

/-- Embedding of `_aggregate_test_cases` (lines 61-75): the training set is
`publicTests` then `generatedTests` (each only when the key is present), the
test set is `privateTests` when present. -/
def aggregate_test_cases (p : ProblemJson) : List TestCase × List TestCase :=
  let training_set : List TestCase := []
  let training_set :=
    if p.publicTests.isSome then training_set ++ p.publicTests.getD [] else training_set
  let training_set :=
    if p.generatedTests.isSome then training_set ++ p.generatedTests.getD [] else training_set
  let test_set : List TestCase := []
  let test_set := if p.privateTests.isSome then p.privateTests.getD [] else test_set
  (training_set, test_set)

/-- Embedding of lines 98-100: the dict `_transpose_input_output` returns for
`training_set + test_set` (keys `inputs`, `outputs`, in insertion order),
after `dict.update` appended the two size entries.  The second size key is
spelled `"test_set_size "` — with a trailing space — exactly as in the
source (line 100). -/
def input_outputs_dict (p : ProblemJson) : List (String × JVal) :=
  let agg := aggregate_test_cases p
  let b := transpose_input_output (agg.1 ++ agg.2)
  [("inputs", JVal.arr (b.inputs.map JVal.str)),
   ("outputs", JVal.arr (b.outputs.map JVal.str)),
   ("train_set_size", JVal.num agg.1.length),
   ("test_set_size ", JVal.num agg.2.length)]

/-! Helper lemmas about the reshaper. -/

theorem transpose_foldl (l : List TestCase) (acc : Bundle) :
    l.foldl
      (fun acc datum =>
        { inputs := acc.inputs ++ [datum.input],
          outputs := acc.outputs ++ [datum.output] })
      acc
    = { inputs := acc.inputs ++ l.map TestCase.input,
        outputs := acc.outputs ++ l.map TestCase.output } := by
  induction l generalizing acc with
  | nil => simp
  | cons h t ih => simp [List.foldl_cons, ih]

theorem transpose_inputs (l : List TestCase) :
    (transpose_input_output l).inputs = l.map TestCase.input := by
  simp [transpose_input_output, transpose_foldl]

theorem transpose_outputs (l : List TestCase) :
    (transpose_input_output l).outputs = l.map TestCase.output := by
  simp [transpose_input_output, transpose_foldl]

/-- C1: reshaping a sequence of {input, output} pairs and then zipping the
resulting `inputs` and `outputs` lists index by index reproduces the original
sequence of pairs in the original order. -/
theorem transpose_input_output_roundtrip (test_cases : List TestCase) :
    List.zipWith TestCase.mk
      (transpose_input_output test_cases).inputs
      (transpose_input_output test_cases).outputs
    = test_cases := by
  rw [transpose_inputs, transpose_outputs]
  induction test_cases with
  | nil => rfl
  | cons h t ih => simp [ih]

/-- C3: in the structure written to `input_output.json`, the recorded sizes
satisfy `train_set_size + test_set_size == len(inputs)` (the second size
entry being stored under the source's key `"test_set_size "`). -/
theorem input_outputs_sizes_sum (p : ProblemJson) :
    ∃ (ins : List JVal) (a b : Nat),
      (input_outputs_dict p).lookup "inputs" = some (JVal.arr ins) ∧
      (input_outputs_dict p).lookup "train_set_size" = some (JVal.num a) ∧
      (input_outputs_dict p).lookup "test_set_size " = some (JVal.num b) ∧
      a + b = ins.length := by
  refine ⟨((transpose_input_output
      ((aggregate_test_cases p).1 ++ (aggregate_test_cases p).2)).inputs.map JVal.str),
    (aggregate_test_cases p).1.length, (aggregate_test_cases p).2.length, ?_, ?_, ?_, ?_⟩
  · simp [input_outputs_dict, List.lookup]
  · simp [input_outputs_dict, List.lookup]
  · simp [input_outputs_dict, List.lookup]
  · simp [transpose_inputs]

/-- C4: the `inputs` entry of `input_output.json` is the concatenation, in
order, of the `publicTests`, then `generatedTests`, then `privateTests`
inputs (an absent group contributing nothing), and `outputs` is the matching
concatenation of the outputs, so the training portion precedes the test
portion and pairing order within each group is preserved. -/
theorem input_outputs_concat_order (p : ProblemJson) :
    (input_outputs_dict p).lookup "inputs"
      = some (JVal.arr
          ((((p.publicTests.getD []).map TestCase.input
            ++ (p.generatedTests.getD []).map TestCase.input)
            ++ (p.privateTests.getD []).map TestCase.input).map JVal.str)) ∧
    (input_outputs_dict p).lookup "outputs"
      = some (JVal.arr
          ((((p.publicTests.getD []).map TestCase.output
            ++ (p.generatedTests.getD []).map TestCase.output)
            ++ (p.privateTests.getD []).map TestCase.output).map JVal.str)) := by
  rcases p with ⟨nm, src, desc, sols, pub, priv, gen⟩
  constructor
  · cases pub <;> cases priv <;> cases gen <;>
      simp [input_outputs_dict, aggregate_test_cases, transpose_inputs, List.lookup]
  · cases pub <;> cases priv <;> cases gen <;>
      simp [input_outputs_dict, aggregate_test_cases, transpose_outputs, List.lookup]

/-! Model of the path helpers the emitter uses: `os.path.join` for a
relative second component, and the extension half of `os.path.splitext`. -/

/-- Model of `os.path.join save_dir name` for a relative `name` (the only
way the program calls it). -/
def os_path_join (a b : String) : String := a ++ "/" ++ b

/-- The basename characters of a path: everything after the last `'/'`. -/
def basenameChars (cs : List Char) : List Char :=
  (cs.reverse.takeWhile (fun c => c ≠ '/')).reverse

/-- The extension of a basename, following CPython's `splitext`: the suffix
from the last `'.'`, except that a basename whose characters before that dot
are all dots (for example `.bashrc` or `..py`) has no extension. -/
def extSplitChars (base : List Char) : List Char :=
  let rev := base.reverse
  let extRev := rev.takeWhile (fun c => c ≠ '.')
  if extRev.length = rev.length then []
  else if (rev.drop (extRev.length + 1)).all (fun c => c = '.') then []
  else '.' :: extRev.reverse

/-- Model of `os.path.splitext(path)[1]` (line 107). -/
def splitext_ext (path : String) : String :=
  String.mk (extSplitChars (basenameChars path.data))

theorem takeWhile_append_stop {p : Char → Bool} {c : Char} (hc : p c = false)
    (l m : List Char) : (l ++ c :: m).takeWhile p = l.takeWhile p := by
  induction l with
  | nil => simp [List.takeWhile_cons, hc]
  | cons a l ih =>
      simp only [List.cons_append, List.takeWhile_cons, ih]

theorem basenameChars_append (xs ys : List Char) :
    basenameChars (xs ++ '/' :: ys) = basenameChars ys := by
  unfold basenameChars
  rw [List.reverse_append, List.reverse_cons, List.append_assoc,
    List.singleton_append, takeWhile_append_stop (by simp)]

/-- The extension of `a ++ "/" ++ b` is decided by `b` alone: the appended
separator hides every character of `a` from the basename. -/
theorem splitext_ext_join (s fn : String) :
    splitext_ext (os_path_join s fn) = splitext_ext fn := by
  have hdata : (os_path_join s fn).data = s.data ++ '/' :: fn.data := by
    simp [os_path_join, String.data_append]
  simp [splitext_ext, hdata, basenameChars_append]

theorem ext_solutions (s : String) :
    splitext_ext (os_path_join s "solutions.json") = ".json" := by
  rw [splitext_ext_join]; decide

theorem ext_question (s : String) :
    splitext_ext (os_path_join s "question.txt") = ".txt" := by
  rw [splitext_ext_join]; decide

theorem ext_public (s : String) :
    splitext_ext (os_path_join s "public_test_cases.json") = ".json" := by
  rw [splitext_ext_join]; decide

theorem ext_private (s : String) :
    splitext_ext (os_path_join s "private_test_cases.json") = ".json" := by
  rw [splitext_ext_join]; decide

theorem ext_generated (s : String) :
    splitext_ext (os_path_join s "generated_test_cases.json") = ".json" := by
  rw [splitext_ext_join]; decide

theorem ext_input_output (s : String) :
    splitext_ext (os_path_join s "input_output.json") = ".json" := by
  rw [splitext_ext_join]; decide

/-! Model of `json.dump` (the part of the standard library the `.json`
branch calls).  Escaping of control characters beyond the common ones and
of non-ASCII text is elided; no claim inspects escaped bytes. -/

/-- JSON string escaping for one character. -/
def escapeChar (c : Char) : String :=
  if c = '"' then "\\\""
  else if c = '\\' then "\\\\"
  else if c = '\n' then "\\n"
  else if c = '\r' then "\\r"
  else if c = '\t' then "\\t"
  else String.singleton c

/-- JSON string escaping. -/
def escapeString (s : String) : String :=
  String.join (s.data.map escapeChar)

/-- Comma-space separated join, as `json.dump`'s default item separator. -/
def joinSep (sep : String) : List String → String
  | [] => ""
  | [x] => x
  | x :: xs => x ++ sep ++ joinSep sep xs

mutual

/-- Serialization of a JSON value with `json.dump`'s default separators. -/
def dump : JVal → String
  | .str s => "\"" ++ escapeString s ++ "\""
  | .num n => Nat.repr n
  | .arr xs => "[" ++ dumpList xs ++ "]"
  | .obj fs => "\x7b" ++ dumpObj fs ++ "\x7d"

/-- Serialization of the elements of a JSON array. -/
def dumpList : List JVal → String
  | [] => ""
  | [x] => dump x
  | x :: xs => dump x ++ ", " ++ dumpList xs

/-- Serialization of the fields of a JSON object. -/
def dumpObj : List (String × JVal) → String
  | [] => ""
  | [(k, v)] => "\"" ++ escapeString k ++ "\": " ++ dump v
  | (k, v) :: xs => "\"" ++ escapeString k ++ "\": " ++ dump v ++ ", " ++ dumpObj xs

end

theorem dump_arr_ne_empty (xs : List JVal) : dump (JVal.arr xs) ≠ "" := by
  intro h
  have hlen := congrArg String.length h
  simp [dump, String.length_append] at hlen
  exact absurd hlen.1.1 (by decide)

theorem dump_obj_ne_empty (fs : List (String × JVal)) : dump (JVal.obj fs) ≠ "" := by
  intro h
  have hlen := congrArg String.length h
  simp [dump, String.length_append] at hlen
  exact absurd hlen.1.1 (by decide)

/-! The emitter `_convert_to_apps_format` (lines 78-118), as a trace
semantics: directory creations, progress prints, file writes and
missing-field diagnostics become events; a raised exception becomes a
`some` error that stops all further processing while keeping the events
that already happened. -/

/-- JSON rendering of one test case. -/
def testCaseJson (tc : TestCase) : JVal :=
  JVal.obj [("input", JVal.str tc.input), ("output", JVal.str tc.output)]

/-- Attribute lookup on the problem dict as it stands when the mapping loop
runs: the fields `json.loads(MessageToJson(problem))` produced (line 96),
plus the `input_outputs` entry line 101 unconditionally added.
`attribute in problem.keys()` is `(getAttr p a).isSome`. -/
def getAttr (p : ProblemJson) (a : String) : Option JVal :=
  if a = "name" then some (JVal.str p.name)
  else if a = "source" then some (JVal.str p.source)
  else if a = "description" then p.description.map JVal.str
  else if a = "solutions" then p.solutions.map JVal.arr
  else if a = "publicTests" then p.publicTests.map (fun ts => JVal.arr (ts.map testCaseJson))
  else if a = "privateTests" then p.privateTests.map (fun ts => JVal.arr (ts.map testCaseJson))
  else if a = "generatedTests" then p.generatedTests.map (fun ts => JVal.arr (ts.map testCaseJson))
  else if a = "input_outputs" then some (JVal.obj (input_outputs_dict p))
  else none

/-- One observable side effect of the emitter.  `diagMissing src attr`
stands for the line `problem \x7bsrc\x7d does not have attribute \x7battr\x7d`
printed on line 118. -/
inductive Event where
  | println (line : String)
  | mkdirs (path : String)
  | writeFile (path : String) (content : String)
  | diagMissing (source : String) (attr : String)
deriving DecidableEq, Repr

/-- Whether an event is a file write. -/
def Event.isWrite : Event → Bool
  | .writeFile _ _ => true
  | _ => false

/-- The trace of one possibly aborted run: the events in the order they happened,
and the message of the exception that aborted it, if one was raised. -/
structure RunResult where
  events : List Event
  error : Option String
deriving DecidableEq, Repr

/-- The body of the mapping loop (lines 103-118) for one mapping entry
`(filename, attribute)`: a present attribute is written to its file — raw
text for a `.txt` extension (a write of a non-string raises `TypeError`,
as `f.write` would), `json.dump` output for `.json`, and any other
extension raises `Unknown extension ...` (line 116); an absent attribute
produces the diagnostic print (line 118). -/
def process_entry (prob_path : String) (p : ProblemJson) (entry : String × String) :
    Except String (List Event) :=
  match getAttr p entry.2 with
  | some v =>
      let file_path := os_path_join prob_path entry.1
      let extension := splitext_ext file_path
      if extension = ".txt" then
        match v with
        | JVal.str s => .ok [Event.writeFile file_path s]
        | _ => .error "TypeError: write() argument must be str"
      else if extension = ".json" then
        .ok [Event.writeFile file_path (dump v)]
      else
        .error ("Unknown extension " ++ extension)
  | none => .ok [Event.diagMissing p.source entry.2]

/-- The mapping loop over a list of entries: entries run in declaration
order; a raised exception stops the loop, discarding no event that already
happened. -/
def process_entries (prob_path : String) (p : ProblemJson) :
    List (String × String) → RunResult
  | [] => ⟨[], none⟩
  | e :: rest =>
    match process_entry prob_path p e with
    | .ok evs =>
        let r := process_entries prob_path p rest
        ⟨evs ++ r.events, r.error⟩
    | .error msg => ⟨[], some msg⟩

/-- The per-problem directory name (line 90): source label, a space, then
the problem name. -/
def problem_dir_name (p : ProblemJson) : String := p.source ++ " " ++ p.name

/-- The per-problem output directory (line 93). -/
def prob_path (save_dir : String) (p : ProblemJson) : String :=
  os_path_join save_dir (problem_dir_name p)

/-- The per-problem body of the emitter (lines 89-118): print the progress
line, create the problem directory, then run the mapping loop. -/
def process_problem (save_dir : String) (m : List (String × String)) (p : ProblemJson) :
    RunResult :=
  let name := problem_dir_name p
  let r := process_entries (prob_path save_dir p) p m
  ⟨Event.println name :: Event.mkdirs (prob_path save_dir p) :: r.events, r.error⟩

/-- The loop over all problems (line 89): problems run in order and an
exception raised while processing one problem aborts the whole run. -/
def run_problems (save_dir : String) (m : List (String × String)) :
    List ProblemJson → RunResult
  | [] => ⟨[], none⟩
  | p :: rest =>
    let r := process_problem save_dir m p
    match r.error with
    | some msg => ⟨r.events, some msg⟩
    | none =>
        let r2 := run_problems save_dir m rest
        ⟨r.events ++ r2.events, r2.error⟩

/-- The emitter for an arbitrary mapping table: create the save directory
(line 79), then process every problem. -/
def convert_run (save_dir : String) (m : List (String × String))
    (problems : List ProblemJson) : RunResult :=
  let r := run_problems save_dir m problems
  ⟨Event.mkdirs save_dir :: r.events, r.error⟩

/-- The fixed mapping table (lines 81-87). -/
def mapping : List (String × String) :=
  [("solutions.json", "solutions"),
   ("question.txt", "description"),
   ("public_test_cases.json", "publicTests"),
   ("private_test_cases.json", "privateTests"),
   ("generated_test_cases.json", "generatedTests"),
   ("input_output.json", "input_outputs")]

/-- Embedding of `_convert_to_apps_format` (lines 78-118): `convert_run`
at the fixed mapping table. -/
def convert_to_apps_format (save_dir : String) (problems : List ProblemJson) : RunResult :=
  convert_run save_dir mapping problems

/-! The name/source reporter (lines 33-46). -/

/-- Embedding of `_all_problems` (lines 33-38): every record of every file,
in file order then in-file order.  A file is modelled by the list of
problems its record reader yields. -/
def all_problems (files : List (List ProblemJson)) : List ProblemJson :=
  files.flatten

/-- Embedding of `_print_names_and_sources` (lines 41-46): the printed
lines, in order; `print(Source.Name(problem.source), problem.name)` emits
the label, one space, then the name. -/
def print_names_and_sources (files : List (List ProblemJson)) : List String :=
  (all_problems files).map (fun p => p.source ++ " " ++ p.name)

/-! Evaluation lemmas for the emitter. -/

theorem entry_solutions (pp : String) (p : ProblemJson) :
    process_entry pp p ("solutions.json", "solutions") =
      .ok (match p.solutions with
        | some sol =>
            [Event.writeFile (os_path_join pp "solutions.json") (dump (JVal.arr sol))]
        | none => [Event.diagMissing p.source "solutions"]) := by
  cases h : p.solutions <;> simp [process_entry, getAttr, h, ext_solutions]

theorem entry_question (pp : String) (p : ProblemJson) :
    process_entry pp p ("question.txt", "description") =
      .ok (match p.description with
        | some d => [Event.writeFile (os_path_join pp "question.txt") d]
        | none => [Event.diagMissing p.source "description"]) := by
  cases h : p.description <;> simp [process_entry, getAttr, h, ext_question]

theorem entry_public (pp : String) (p : ProblemJson) :
    process_entry pp p ("public_test_cases.json", "publicTests") =
      .ok (match p.publicTests with
        | some ts =>
            [Event.writeFile (os_path_join pp "public_test_cases.json")
              (dump (JVal.arr (ts.map testCaseJson)))]
        | none => [Event.diagMissing p.source "publicTests"]) := by
  cases h : p.publicTests <;> simp [process_entry, getAttr, h, ext_public]

theorem entry_private (pp : String) (p : ProblemJson) :
    process_entry pp p ("private_test_cases.json", "privateTests") =
      .ok (match p.privateTests with
        | some ts =>
            [Event.writeFile (os_path_join pp "private_test_cases.json")
              (dump (JVal.arr (ts.map testCaseJson)))]
        | none => [Event.diagMissing p.source "privateTests"]) := by
  cases h : p.privateTests <;> simp [process_entry, getAttr, h, ext_private]

theorem entry_generated (pp : String) (p : ProblemJson) :
    process_entry pp p ("generated_test_cases.json", "generatedTests") =
      .ok (match p.generatedTests with
        | some ts =>
            [Event.writeFile (os_path_join pp "generated_test_cases.json")
              (dump (JVal.arr (ts.map testCaseJson)))]
        | none => [Event.diagMissing p.source "generatedTests"]) := by
  cases h : p.generatedTests <;> simp [process_entry, getAttr, h, ext_generated]

theorem entry_input_output (pp : String) (p : ProblemJson) :
    process_entry pp p ("input_output.json", "input_outputs") =
      .ok [Event.writeFile (os_path_join pp "input_output.json")
        (dump (JVal.obj (input_outputs_dict p)))] := by
  simp [process_entry, getAttr, ext_input_output]

/-- Running the mapping loop with the fixed mapping table never raises, and
its events are the six per-entry chunks in declaration order. -/
theorem process_entries_mapping (pp : String) (p : ProblemJson) :
    process_entries pp p mapping =
      ⟨(match p.solutions with
        | some sol =>
            [Event.writeFile (os_path_join pp "solutions.json") (dump (JVal.arr sol))]
        | none => [Event.diagMissing p.source "solutions"]) ++
       (match p.description with
        | some d => [Event.writeFile (os_path_join pp "question.txt") d]
        | none => [Event.diagMissing p.source "description"]) ++
       (match p.publicTests with
        | some ts =>
            [Event.writeFile (os_path_join pp "public_test_cases.json")
              (dump (JVal.arr (ts.map testCaseJson)))]
        | none => [Event.diagMissing p.source "publicTests"]) ++
       (match p.privateTests with
        | some ts =>
            [Event.writeFile (os_path_join pp "private_test_cases.json")
              (dump (JVal.arr (ts.map testCaseJson)))]
        | none => [Event.diagMissing p.source "privateTests"]) ++
       (match p.generatedTests with
        | some ts =>
            [Event.writeFile (os_path_join pp "generated_test_cases.json")
              (dump (JVal.arr (ts.map testCaseJson)))]
        | none => [Event.diagMissing p.source "generatedTests"]) ++
       [Event.writeFile (os_path_join pp "input_output.json")
        (dump (JVal.obj (input_outputs_dict p)))],
       none⟩ := by
  simp only [mapping, process_entries, entry_solutions, entry_question, entry_public,
    entry_private, entry_generated, entry_input_output]
  simp [List.append_assoc]

/-- A problem whose per-problem processing succeeds contributes its events
and hands control to the remaining problems. -/
theorem run_problems_cons_ok (save_dir : String) (m : List (String × String))
    (p : ProblemJson) (ps : List ProblemJson)
    (h : (process_problem save_dir m p).error = none) :
    run_problems save_dir m (p :: ps) =
      ⟨(process_problem save_dir m p).events ++ (run_problems save_dir m ps).events,
       (run_problems save_dir m ps).error⟩ := by
  simp [run_problems, h]

/-- A prefix of entries that raises no exception followed by an entry that
raises one: the loop keeps the prefix's events and stops with that
exception, regardless of the remaining entries. -/
theorem process_entries_append_error (pp : String) (p : ProblemJson)
    (pre rest : List (String × String)) (e : String × String) (msg : String)
    (hpre : (process_entries pp p pre).error = none)
    (he : process_entry pp p e = .error msg) :
    process_entries pp p (pre ++ e :: rest) =
      ⟨(process_entries pp p pre).events, some msg⟩ := by
  induction pre with
  | nil => simp [process_entries, he]
  | cons a pre ih =>
      rw [List.cons_append]
      cases ha : process_entry pp p a with
      | ok evs =>
          have hpre' : (process_entries pp p pre).error = none := by
            simp [process_entries, ha] at hpre
            exact hpre
          simp only [process_entries, ha, ih hpre']
      | error m2 => simp [process_entries, ha] at hpre

theorem string_append_left_cancel {s a b : String} (h : s ++ a = s ++ b) : a = b := by
  apply String.ext
  have hd : s.data ++ a.data = s.data ++ b.data := by
    have hc := congrArg String.data h
    simpa [String.data_append] using hc
  exact List.append_cancel_left hd

/-- Joining the same directory with two names yields the same path exactly
when the names agree. -/
theorem os_path_join_eq_iff (s a b : String) :
    os_path_join s a = os_path_join s b ↔ a = b := by
  constructor
  · intro h
    exact string_append_left_cancel (by simpa [os_path_join] using h)
  · intro h; rw [h]

/-- With the fixed mapping table, no per-problem run raises. -/
theorem process_problem_mapping_error (save_dir : String) (p : ProblemJson) :
    (process_problem save_dir mapping p).error = none := by
  simp [process_problem, process_entries_mapping]

/-- With the fixed mapping table, no run over any problem list raises. -/
theorem run_problems_mapping_error (save_dir : String) (ps : List ProblemJson) :
    (run_problems save_dir mapping ps).error = none := by
  induction ps with
  | nil => rfl
  | cons q qs ih =>
      rw [run_problems_cons_ok _ _ _ _ (process_problem_mapping_error save_dir q)]
      exact ih

/-! Concrete problems used as witnesses. -/

/-- A problem none of whose optional fields is present. -/
def emptyFieldsProblem : ProblemJson :=
  { name := "A", source := "CODEFORCES", description := none, solutions := none,
    publicTests := none, privateTests := none, generatedTests := none }

/-- A problem possessing every field the mapping table names. -/
def fullProblem : ProblemJson :=
  { name := "A", source := "CODEFORCES", description := some "desc",
    solutions := some [JVal.str "print(2)"],
    publicTests := some [⟨"1\n", "2\n"⟩],
    privateTests := some [⟨"3\n", "4\n"⟩],
    generatedTests := some [⟨"5\n", "6\n"⟩] }

/-- C2 (divergence): the structure written to `input_output.json` has keys
`inputs`, `outputs`, `train_set_size` and `"test_set_size "` — the source
(line 100) spells the fourth key with a trailing space, so it is not the
key `test_set_size` the claim states. -/
theorem input_outputs_key_trailing_space (p : ProblemJson) :
    (input_outputs_dict p).map Prod.fst
      = ["inputs", "outputs", "train_set_size", "test_set_size "] ∧
    ("test_set_size " : String) ≠ "test_set_size" :=
  ⟨rfl, by decide⟩

/-- C10: with the fixed mapping table every output filename carries a
recognized extension, so the unknown-extension `raise` (line 116) is
unreachable: every per-problem run and every full run ends with no raised
exception. -/
theorem unknown_extension_branch_unreachable (save_dir : String) (p : ProblemJson)
    (ps : List ProblemJson) :
    (process_problem save_dir mapping p).error = none ∧
    (convert_to_apps_format save_dir ps).error = none := by
  refine ⟨process_problem_mapping_error save_dir p, ?_⟩
  simp [convert_to_apps_format, convert_run, run_problems_mapping_error]

/-- C9: the `input_outputs` key is added to the problem structure before the
mapping loop runs, so `input_output.json` is always written and the
missing-field diagnostic never fires for `input_outputs`; and a problem with
no test-case field at all gets empty `inputs` and `outputs` lists with both
recorded sizes equal to 0. -/
theorem input_output_json_always_written (save_dir : String) (p : ProblemJson) :
    (Event.writeFile (os_path_join (prob_path save_dir p) "input_output.json")
        (dump (JVal.obj (input_outputs_dict p)))
      ∈ (process_problem save_dir mapping p).events) ∧
    (∀ s, Event.diagMissing s "input_outputs"
      ∉ (process_problem save_dir mapping p).events) ∧
    (p.publicTests = none → p.generatedTests = none → p.privateTests = none →
      input_outputs_dict p =
        [("inputs", JVal.arr []), ("outputs", JVal.arr []),
         ("train_set_size", JVal.num 0), ("test_set_size ", JVal.num 0)]) := by
  refine ⟨?_, ?_, ?_⟩
  · simp [process_problem, process_entries_mapping]
  · intro s
    rcases p with ⟨nm, src, desc, sols, pub, priv, gen⟩
    cases desc <;> cases sols <;> cases pub <;> cases priv <;> cases gen <;>
      simp [process_problem, process_entries_mapping]
  · intro hpub hgen hpriv
    simp [input_outputs_dict, aggregate_test_cases, hpub, hgen, hpriv,
      transpose_input_output]

theorem input_output_json_always_written_witness :
    input_outputs_dict emptyFieldsProblem =
      [("inputs", JVal.arr []), ("outputs", JVal.arr []),
       ("train_set_size", JVal.num 0), ("test_set_size ", JVal.num 0)] :=
  (input_output_json_always_written "/out" emptyFieldsProblem).2.2 rfl rfl rfl

/-- C7: a problem possessing every mapped field produces exactly one write
per mapping entry — six writes, each under its designated filename inside
the problem's output directory, in mapping order, with no diagnostic and no
raised exception — and every written content is non-empty whenever the
source field is (the five JSON serializations are never empty, and
`question.txt` holds the raw description). -/
theorem all_fields_written (save_dir : String) (p : ProblemJson)
    (sol : List JVal) (d : String) (pub priv gen : List TestCase)
    (hsol : p.solutions = some sol) (hd : p.description = some d)
    (hpub : p.publicTests = some pub) (hpriv : p.privateTests = some priv)
    (hgen : p.generatedTests = some gen) :
    process_problem save_dir mapping p =
      ⟨[Event.println (problem_dir_name p),
        Event.mkdirs (prob_path save_dir p),
        Event.writeFile (os_path_join (prob_path save_dir p) "solutions.json")
          (dump (JVal.arr sol)),
        Event.writeFile (os_path_join (prob_path save_dir p) "question.txt") d,
        Event.writeFile (os_path_join (prob_path save_dir p) "public_test_cases.json")
          (dump (JVal.arr (pub.map testCaseJson))),
        Event.writeFile (os_path_join (prob_path save_dir p) "private_test_cases.json")
          (dump (JVal.arr (priv.map testCaseJson))),
        Event.writeFile (os_path_join (prob_path save_dir p) "generated_test_cases.json")
          (dump (JVal.arr (gen.map testCaseJson))),
        Event.writeFile (os_path_join (prob_path save_dir p) "input_output.json")
          (dump (JVal.obj (input_outputs_dict p)))],
       none⟩ ∧
    ((process_problem save_dir mapping p).events.filter Event.isWrite).length
      = mapping.length ∧
    (d ≠ "" → ∀ path c,
      Event.writeFile path c ∈ (process_problem save_dir mapping p).events → c ≠ "") := by
  have h1 : process_problem save_dir mapping p =
      ⟨[Event.println (problem_dir_name p),
        Event.mkdirs (prob_path save_dir p),
        Event.writeFile (os_path_join (prob_path save_dir p) "solutions.json")
          (dump (JVal.arr sol)),
        Event.writeFile (os_path_join (prob_path save_dir p) "question.txt") d,
        Event.writeFile (os_path_join (prob_path save_dir p) "public_test_cases.json")
          (dump (JVal.arr (pub.map testCaseJson))),
        Event.writeFile (os_path_join (prob_path save_dir p) "private_test_cases.json")
          (dump (JVal.arr (priv.map testCaseJson))),
        Event.writeFile (os_path_join (prob_path save_dir p) "generated_test_cases.json")
          (dump (JVal.arr (gen.map testCaseJson))),
        Event.writeFile (os_path_join (prob_path save_dir p) "input_output.json")
          (dump (JVal.obj (input_outputs_dict p)))],
       none⟩ := by
    simp [process_problem, process_entries_mapping, hsol, hd, hpub, hpriv, hgen]
  refine ⟨h1, ?_, ?_⟩
  · rw [h1]
    simp [Event.isWrite, mapping]
  · intro hd' path c hmem
    rw [h1] at hmem
    simp only [List.mem_cons, List.mem_singleton] at hmem
    rcases hmem with h|h|h|h|h|h|h|h|h
    all_goals cases h
    all_goals first
      | exact dump_arr_ne_empty _
      | exact dump_obj_ne_empty _
      | exact hd'

theorem all_fields_written_witness :
    process_problem "/out" mapping fullProblem =
      ⟨[Event.println (problem_dir_name fullProblem),
        Event.mkdirs (prob_path "/out" fullProblem),
        Event.writeFile (os_path_join (prob_path "/out" fullProblem) "solutions.json")
          (dump (JVal.arr [JVal.str "print(2)"])),
        Event.writeFile (os_path_join (prob_path "/out" fullProblem) "question.txt") "desc",
        Event.writeFile (os_path_join (prob_path "/out" fullProblem) "public_test_cases.json")
          (dump (JVal.arr ([(⟨"1\n", "2\n"⟩ : TestCase)].map testCaseJson))),
        Event.writeFile (os_path_join (prob_path "/out" fullProblem) "private_test_cases.json")
          (dump (JVal.arr ([(⟨"3\n", "4\n"⟩ : TestCase)].map testCaseJson))),
        Event.writeFile (os_path_join (prob_path "/out" fullProblem) "generated_test_cases.json")
          (dump (JVal.arr ([(⟨"5\n", "6\n"⟩ : TestCase)].map testCaseJson))),
        Event.writeFile (os_path_join (prob_path "/out" fullProblem) "input_output.json")
          (dump (JVal.obj (input_outputs_dict fullProblem)))],
       none⟩ :=
  (all_fields_written "/out" fullProblem [JVal.str "print(2)"] "desc"
    [⟨"1\n", "2\n"⟩] [⟨"3\n", "4\n"⟩] [⟨"5\n", "6\n"⟩] rfl rfl rfl rfl rfl).1

/-- C5: a problem lacking a mapped field writes no file for that entry,
emits exactly one diagnostic naming the field and the problem's source, and
processing continues through the remaining entries (no raised exception)
and through the remaining problems. -/
theorem missing_field_diagnostic (save_dir : String) (p : ProblemJson)
    (fn attr : String) (ps : List ProblemJson)
    (hmem : (fn, attr) ∈ mapping)
    (habs : getAttr p attr = none) :
    ((process_problem save_dir mapping p).events.count
        (Event.diagMissing p.source attr) = 1) ∧
    (∀ c, Event.writeFile (os_path_join (prob_path save_dir p) fn) c
        ∉ (process_problem save_dir mapping p).events) ∧
    (process_problem save_dir mapping p).error = none ∧
    run_problems save_dir mapping (p :: ps) =
      ⟨(process_problem save_dir mapping p).events
          ++ (run_problems save_dir mapping ps).events,
        (run_problems save_dir mapping ps).error⟩ := by
  have herr := process_problem_mapping_error save_dir p
  refine ⟨?_, ?_, herr, run_problems_cons_ok _ _ _ _ herr⟩ <;>
  · rcases p with ⟨nm, src, desc, sols, pub, priv, gen⟩
    simp only [mapping, List.mem_cons, List.not_mem_nil, or_false,
      Prod.mk.injEq] at hmem
    rcases hmem with ⟨rfl, rfl⟩|⟨rfl, rfl⟩|⟨rfl, rfl⟩|⟨rfl, rfl⟩|⟨rfl, rfl⟩|⟨rfl, rfl⟩ <;>
      simp only [getAttr] at habs <;>
      cases desc <;> cases sols <;> cases pub <;> cases priv <;> cases gen <;>
      simp_all [process_problem, process_entries_mapping, prob_path,
        List.count_cons, List.count_append, os_path_join_eq_iff]

theorem missing_field_diagnostic_witness :
    (process_problem "/out" mapping emptyFieldsProblem).events.count
      (Event.diagMissing emptyFieldsProblem.source "solutions") = 1 :=
  (missing_field_diagnostic "/out" emptyFieldsProblem "solutions.json" "solutions" []
    (by decide) rfl).1

/-- C6: a mapping entry whose output filename carries an unrecognized
extension, met while its source field is present, raises the
`Unknown extension` exception: the entry's file is not written, the entries
after it and the problems after the current one contribute nothing, and the
whole run stops with that error, keeping only the events that preceded the
entry. -/
theorem unknown_extension_aborts (save_dir : String) (p : ProblemJson)
    (pre rest : List (String × String)) (fn attr : String) (v : JVal)
    (ps : List ProblemJson)
    (hv : getAttr p attr = some v)
    (htxt : splitext_ext fn ≠ ".txt")
    (hjson : splitext_ext fn ≠ ".json")
    (hpre : (process_entries (prob_path save_dir p) p pre).error = none) :
    convert_run save_dir (pre ++ (fn, attr) :: rest) (p :: ps) =
      ⟨Event.mkdirs save_dir :: Event.println (problem_dir_name p) ::
        Event.mkdirs (prob_path save_dir p) ::
        (process_entries (prob_path save_dir p) p pre).events,
       some ("Unknown extension " ++ splitext_ext fn)⟩ := by
  have he : process_entry (prob_path save_dir p) p (fn, attr) =
      .error ("Unknown extension " ++ splitext_ext fn) := by
    simp [process_entry, hv, splitext_ext_join, htxt, hjson]
  have hloop := process_entries_append_error (prob_path save_dir p) p pre rest
    (fn, attr) _ hpre he
  simp [convert_run, run_problems, process_problem, hloop]

theorem unknown_extension_aborts_witness :
    convert_run "/out" ([] ++ ("weird.xyz", "description") :: []) (fullProblem :: []) =
      ⟨Event.mkdirs "/out" :: Event.println (problem_dir_name fullProblem) ::
        Event.mkdirs (prob_path "/out" fullProblem) ::
        (process_entries (prob_path "/out" fullProblem) fullProblem []).events,
       some ("Unknown extension " ++ splitext_ext "weird.xyz")⟩ :=
  unknown_extension_aborts "/out" fullProblem [] [] "weird.xyz" "description"
    (JVal.str "desc") [] rfl (by decide) (by decide) rfl

/-- C8: the reporter prints exactly one line per problem, each of the form
`<source label> <name>`, in file order then in-file order; on two container
files holding 2 and 3 records it prints exactly 5 lines. -/
theorem reporter_one_line_per_problem :
    (∀ files : List (List ProblemJson),
      (print_names_and_sources files).length = (all_problems files).length) ∧
    (∀ f1 f2 : List ProblemJson, f1.length = 2 → f2.length = 3 →
      print_names_and_sources [f1, f2]
          = (f1 ++ f2).map (fun p => p.source ++ " " ++ p.name) ∧
      (print_names_and_sources [f1, f2]).length = 5) := by
  constructor
  · intro files
    simp [print_names_and_sources]
  · intro f1 f2 h1 h2
    constructor
    · simp [print_names_and_sources, all_problems]
    · simp [print_names_and_sources, all_problems, h1, h2]

theorem reporter_one_line_per_problem_witness :
    (print_names_and_sources
      [[emptyFieldsProblem, fullProblem],
       [emptyFieldsProblem, fullProblem, emptyFieldsProblem]]).length = 5 :=
  (reporter_one_line_per_problem.2
    [emptyFieldsProblem, fullProblem]
    [emptyFieldsProblem, fullProblem, emptyFieldsProblem] rfl rfl).2

end PNS
